import Mathlib

/-!
Verification of the envmcp core pipeline (src/envmcp/core.py,
src/envmcp/executor.py, src/envmcp/cli.py) via a shallow embedding.

Modelling conventions:
  * Python strings are embedded as `List Char` (named `Str` below), so every
    string operation reduces in the kernel.
  * Filesystem directories for the locator are component lists written
    innermost-first (`["b", "a"]` stands for `/a/b`); the parent of a
    directory is the tail of its list and the root is `[]`, so the source's
    `parent_dir == current_dir` root test becomes the `[]` case.
  * Filesystem state is an oracle `FS.probe` that answers, for a candidate
    path, whether `exists() and is_file()` returned true, returned false, or
    raised an `OSError`/`PermissionError` (the source catches exactly these
    and continues the search).
  * `os.environ` is an insertion-ordered association list (`EnvMap`);
    Python `dict` assignment updates in place, keeping the first-insertion
    position of an existing key, which `dictSet` mirrors.
  * Process-level effects are reified: `sys.exit(c)` becomes the value
    `some c` of `execute_command` (result type `Option Int`; `none` would
    mean the function fell through and returned to its caller, which no
    branch of the source does), printing to stderr is dropped except for the
    parser's warnings, which are returned as the list of warned line numbers.
-/

namespace Envmcp

/-- Python `str` embedded as a list of characters. -/
abbrev Str := List Char

/-- Insertion-ordered string-to-string mapping, modelling Python `dict`
and `os.environ`. -/
abbrev EnvMap := List (Str × Str)

/-- The double-quote character. -/
def dq : Char := Char.ofNat 34

/-- The single-quote character. -/
def sq : Char := Char.ofNat 39

/-- The backtick character. -/
def bq : Char := Char.ofNat 96

/-- Whitespace as stripped by Python `str.strip()` (ASCII part). -/
def isPySpace (c : Char) : Bool :=
  c = ' ' || c = Char.ofNat 9 || c = Char.ofNat 10 || c = Char.ofNat 13 ||
    c = Char.ofNat 11 || c = Char.ofNat 12

/-- Python `str.strip()`. -/
def pyStrip (s : Str) : Str :=
  ((s.dropWhile isPySpace).reverse.dropWhile isPySpace).reverse

/-- Python `str.splitlines()` restricted to the `\n`, `\r` and `\r\n`
terminators: terminators separate lines and a trailing terminator does not
produce a trailing empty line. -/
def splitlinesGo (acc : Str) : Str → List Str
  | [] => if acc = [] then [] else [acc.reverse]
  | c :: rest =>
    if c = Char.ofNat 13 then
      match rest with
      | c2 :: rest2 =>
        if c2 = Char.ofNat 10 then acc.reverse :: splitlinesGo [] rest2
        else acc.reverse :: splitlinesGo [] (c2 :: rest2)
      | [] => [acc.reverse]
    else if c = Char.ofNat 10 then acc.reverse :: splitlinesGo [] rest
    else splitlinesGo (c :: acc) rest

/-- Python `content.splitlines()`. -/
def splitlines (s : Str) : List Str := splitlinesGo [] s

/-- Python `s.partition("=")` (the before/after parts; when `"="` is absent
the before part is the whole string and the after part is empty). -/
def partitionEq : Str → Str × Str
  | [] => ([], [])
  | c :: rest =>
    if c = '=' then ([], rest)
    else
      let p := partitionEq rest
      (c :: p.1, p.2)

/-- Python `dict` assignment `m[k] = v`: overwrite in place if the key is
present, append otherwise. -/
def dictSet (m : EnvMap) (k v : Str) : EnvMap :=
  match m with
  | [] => [(k, v)]
  | (k0, v0) :: rest =>
    if k0 = k then (k0, v) :: rest else (k0, v0) :: dictSet rest k v

/-- Lookup in an `EnvMap` (Python `m[k]` / `k in m`). -/
def envLookup (m : EnvMap) (k : Str) : Option Str :=
  match m with
  | [] => none
  | (k0, v0) :: rest => if k0 = k then some v0 else envLookup rest k

/-- Whether a trimmed value is wrapped in a single matching pair of double
quotes or a single matching pair of single quotes (source lines 109-113:
`value.startswith/endswith` on each quote character). -/
def isQuoteWrapped (v : Str) : Bool :=
  (v.head? = some dq && v.getLast? = some dq) ||
    (v.head? = some sq && v.getLast? = some sq)

/-- The value-processing step of `parse_env_file` (source lines 108-113):
if the value has length at least 2 and is quote-wrapped, strip exactly the
one outer pair (`value[1:-1]`), otherwise keep it. -/
def stripQuotes (v : Str) : Str :=
  if 2 ≤ v.length then
    if isQuoteWrapped v then (v.drop 1).dropLast else v
  else v

/-- Outcome of processing one line of the env file. -/
inductive LineResult where
  | skip
  | warn
  | pair (key value : Str)
deriving DecidableEq, Repr

/-- The per-line logic of `parse_env_file` (source lines 86-115): trim;
skip blanks and `#` comments; warn on a line without `=`; split on the
first `=`; trim key and value; warn on an empty key; strip one quote pair
from the value. -/
def parseLine (line : Str) : LineResult :=
  let trimmed := pyStrip line
  if trimmed = [] then .skip
  else if trimmed.head? = some '#' then .skip
  else if !(trimmed.contains '=') then .warn
  else
    let p := partitionEq trimmed
    let key := pyStrip p.1
    let value := pyStrip p.2
    if key = [] then .warn
    else .pair key (stripQuotes value)

/-- The line loop of `parse_env_file` (source lines 81-115): fold the lines
into the result dict, collecting the line numbers that drew a warning.
`n` is the 1-based number of the next line (`enumerate(lines, 1)`). -/
def parseLinesGo (acc : EnvMap) (n : Nat) : List Str → EnvMap × List Nat
  | [] => (acc, [])
  | line :: rest =>
    match parseLine line with
    | .skip => parseLinesGo acc (n + 1) rest
    | .warn =>
      let r := parseLinesGo acc (n + 1) rest
      (r.1, n :: r.2)
    | .pair k v => parseLinesGo (dictSet acc k v) (n + 1) rest

/-- `parse_env_file` applied to the file content after a successful open
(source lines 81-117): the resulting mapping together with the warned line
numbers. The open itself is modelled at the `load_env_mcp` level. -/
def parse_env_file (content : Str) : EnvMap × List Nat :=
  parseLinesGo [] 1 (splitlines content)

/-- The key/value pairs of the valid lines of the content, in file order
(kept separate from `parse_env_file` to state its characterization). -/
def validPairs (content : Str) : List (Str × Str) :=
  (splitlines content).filterMap fun line =>
    match parseLine line with
    | .pair k v => some (k, v)
    | _ => none

/-- The 1-based numbers of the malformed lines of the content (no `=`, or
empty trimmed key). -/
def malformedLineNums (content : Str) : List Nat :=
  (List.enumFrom 1 (splitlines content)).filterMap fun p =>
    match parseLine p.2 with
    | .warn => some p.1
    | _ => none

/-! ### Locator (`find_env_file`, core.py lines 11-56) -/

/-- Result of probing `env_file_path.exists() and env_file_path.is_file()`
for one candidate: true, false, or an `OSError`/`PermissionError` raised
(caught at source lines 34-35 and 53-54). -/
inductive ProbeResult where
  | isFile
  | noFile
  | ioError
deriving DecidableEq, Repr

/-- The filesystem as seen by the locator: a directory is a component list
written innermost-first, a candidate file path is `envName :: dir`, and
`probe` answers the existence test for a path. `home` is `Path.home()`. -/
structure FS where
  probe : List String → ProbeResult
  home : List String

/-- The sentinel file name `.env.mcp`. -/
def envName : String := ".env.mcp"

/-- Whether a probe confirmed an existing regular file. -/
def isHit : ProbeResult → Bool
  | .isFile => true
  | _ => false

/-- The `while True` walk of `find_env_file` (source lines 28-44): check
`current_dir / ".env.mcp"`; on a hit return it; on a miss or a caught
probe error move to the parent; stop after the root (whose parent equals
itself, i.e. the `[]` case). -/
def find_from (fs : FS) : List String → Option (List String)
  | [] =>
    match fs.probe [envName] with
    | .isFile => some [envName]
    | _ => none
  | c :: rest =>
    match fs.probe (envName :: c :: rest) with
    | .isFile => some (envName :: c :: rest)
    | _ => find_from fs rest

/-- `find_env_file` (source lines 11-56): the upward walk from the resolved
start directory, then the single home-directory fallback probe (lines
46-54), then `None`. A probe error during the fallback is also caught and
yields `None`. -/
def find_env_file (fs : FS) (start : List String) : Option (List String) :=
  match find_from fs start with
  | some p => some p
  | none =>
    match fs.probe (envName :: fs.home) with
    | .isFile => some (envName :: fs.home)
    | _ => none

/-- The resolved ancestor chain of a directory: the directory itself, then
each successive parent, ending with the root (stated from the spec side to
characterize the walk). -/
def ancestors : List String → List (List String)
  | [] => [[]]
  | c :: rest => (c :: rest) :: ancestors rest

/-! ### Loader (`load_env_mcp`, core.py lines 120-149) and CLI dispatch -/

/-- Python truthiness choice `custom_path or find_env_file()`: `None` and
the empty string are falsy, so either falls through to the search result
(core.py line 130). -/
def python_or (custom : Option String) (found : Option String) : Option String :=
  match custom with
  | none => found
  | some s => if s = "" then found else some s

/-- Result of `load_env_mcp`: the returned boolean and the state of
`os.environ` after the call. -/
structure LoadResult where
  ok : Bool
  environ : EnvMap
deriving DecidableEq, Repr

/-- The `os.environ[key] = value` loop of `load_env_mcp` (source lines
140-141), applied to the parsed pairs in insertion order. -/
def setVars (environ : EnvMap) (vars : EnvMap) : EnvMap :=
  vars.foldl (fun e kv => dictSet e kv.1 kv.2) environ

/-- `load_env_mcp` (source lines 120-149). `readFile` models the `open` in
`parse_env_file` (source lines 73-79): `Except.error ()` stands for a
raised `FileNotFoundError`/`PermissionError`, caught at line 144 and turned
into `False`. `findResult` is the value `find_env_file()` would return;
`python_or` consults it exactly when `custom_path` is falsy. On success the
parsed variables are written into the global `os.environ`. -/
def load_env_mcp (readFile : String → Except Unit Str) (findResult : Option String)
    (custom : Option String) (environ : EnvMap) : LoadResult :=
  match python_or custom findResult with
  | none => ⟨false, environ⟩
  | some p =>
    match readFile p with
    | .error _ => ⟨false, environ⟩
    | .ok content => ⟨true, setVars environ (parse_env_file content).1⟩

/-- What `main` (cli.py lines 66-71) does after `load_env_mcp` returns:
`sys.exit(1)` on failure, otherwise proceed to `execute_command`. -/
inductive MainStep where
  | exitCode (c : Int)
  | runCommand
deriving DecidableEq, Repr

/-- The dispatch in `main` (cli.py lines 67-71). -/
def main_after_load (ok : Bool) : MainStep :=
  if !ok then .exitCode 1 else .runCommand

/-! ### Executor (`execute_command`, executor.py lines 11-57) -/

/-- The metacharacters of the shell-detection heuristic (executor.py lines
31-33). -/
def shellChars : List Char := ['|', '&', ';', '>', '<', bq, '$']

/-- `needs_shell` (executor.py lines 31-33): whether any metacharacter
occurs in the command token. Only `command` is consulted, never `args`. -/
def needs_shell (command : Str) : Bool :=
  shellChars.any fun c => command.contains c

/-- The one `subprocess.run` call the executor makes: either a shell
invocation of a single joined string (`shell=True`) or a direct launch of a
literal argument vector (`shell=False`); in both, `env` is the copy of
`os.environ` handed to the child. -/
inductive ExecCall where
  | shellCall (cmdStr : Str) (env : EnvMap)
  | directCall (argv : List Str) (env : EnvMap)
deriving DecidableEq, Repr

/-- The environment argument carried by a launch call. -/
def ExecCall.envArg : ExecCall → EnvMap
  | .shellCall _ e => e
  | .directCall _ e => e

/-- Whether a launch call is the shell-exec variant. -/
def ExecCall.isShell : ExecCall → Bool
  | .shellCall _ _ => true
  | .directCall _ _ => false

/-- The call `execute_command` builds (executor.py lines 23, 35-41): on
`needs_shell`, `" ".join([command, *args])` run through the shell; else the
vector `[command, *args]` run directly. `environ` is `os.environ.copy()`. -/
def plannedCall (command : Str) (args : List Str) (environ : EnvMap) : ExecCall :=
  if needs_shell command then
    .shellCall (List.intercalate [' '] (command :: args)) environ
  else
    .directCall (command :: args) environ

/-- Outcome of the attempted `subprocess.run` as the `try` block observes
it: normal completion with a returncode, or one of the exceptions caught at
executor.py lines 46-57. -/
inductive RunResult where
  | completed (returncode : Int)
  | fileNotFound
  | permissionError
  | keyboardInterrupt
  | otherError
deriving DecidableEq, Repr

/-- `execute_command` (executor.py lines 11-57). `run` is the oracle for
what the single `subprocess.run` call does. The result is the code passed
to `sys.exit`; `none` would mean the function returned normally to its
caller, which no branch does. -/
def execute_command (environ : EnvMap) (command : Str) (args : List Str)
    (run : ExecCall → RunResult) : Option Int :=
  match run (plannedCall command args environ) with
  | .completed rc => some rc
  | .fileNotFound => some 127
  | .permissionError => some 126
  | .keyboardInterrupt => some 130
  | .otherError => some 1

/-! ### Claims about the executor -/

/-- Claim C1: for every child process that launches successfully and
terminates normally with exit code `n`, `execute_command` terminates the
wrapper process with exactly `n` as its exit code; the statement covers
every command token, hence both the direct-exec and the shell-exec branch
of `plannedCall`. -/
theorem c1_exit_transparency (environ : EnvMap) (command : Str) (args : List Str)
    (run : ExecCall → RunResult) (n : Int)
    (h : run (plannedCall command args environ) = .completed n) :
    execute_command environ command args run = some n := by
  unfold execute_command
  rw [h]

theorem c1_exit_transparency_witness :
    execute_command [] "ls".toList ["-l".toList] (fun _ => .completed 42) = some 42 ∧
      execute_command [] "a|b".toList ["x".toList] (fun _ => .completed 7) = some 7 :=
  ⟨c1_exit_transparency [] "ls".toList ["-l".toList] (fun _ => .completed 42) 42 rfl,
    c1_exit_transparency [] "a|b".toList ["x".toList] (fun _ => .completed 7) 7 rfl⟩

/-- Claim C2: `execute_command` exits with 127 when command resolution
fails, 126 on a permission denial, 130 on a keyboard interrupt while the
child runs, and 1 on any other launch failure; and on every input it
produces an exit (`isSome`), never returning to its caller. -/
theorem c2_launch_failure_codes (environ : EnvMap) (command : Str) (args : List Str)
    (run : ExecCall → RunResult) :
    (run (plannedCall command args environ) = .fileNotFound →
        execute_command environ command args run = some 127) ∧
    (run (plannedCall command args environ) = .permissionError →
        execute_command environ command args run = some 126) ∧
    (run (plannedCall command args environ) = .keyboardInterrupt →
        execute_command environ command args run = some 130) ∧
    (run (plannedCall command args environ) = .otherError →
        execute_command environ command args run = some 1) ∧
    (execute_command environ command args run).isSome = true := by
  refine ⟨fun h => ?_, fun h => ?_, fun h => ?_, fun h => ?_, ?_⟩ <;>
    unfold execute_command
  · rw [h]
  · rw [h]
  · rw [h]
  · rw [h]
  · cases run (plannedCall command args environ) <;> rfl

theorem c2_launch_failure_codes_witness :
    execute_command [] "nosuch".toList [] (fun _ => .fileNotFound) = some 127 ∧
      execute_command [] "noperm".toList [] (fun _ => .permissionError) = some 126 ∧
      execute_command [] "slow".toList [] (fun _ => .keyboardInterrupt) = some 130 ∧
      execute_command [] "weird".toList [] (fun _ => .otherError) = some 1 :=
  ⟨(c2_launch_failure_codes [] "nosuch".toList [] (fun _ => .fileNotFound)).1 rfl,
    (c2_launch_failure_codes [] "noperm".toList [] (fun _ => .permissionError)).2.1 rfl,
    (c2_launch_failure_codes [] "slow".toList [] (fun _ => .keyboardInterrupt)).2.2.1 rfl,
    (c2_launch_failure_codes [] "weird".toList [] (fun _ => .otherError)).2.2.2.1 rfl⟩

/-- Claim C3: the executor chooses shell execution iff the command token
itself contains one of the characters pipe, ampersand, semicolon, greater,
less, backtick, dollar; when it does, the command and arguments are
re-joined with single spaces into one shell string; otherwise they form a
literal argument vector; and the choice is independent of the argument
list. -/
theorem c3_shell_detection_scope (command : Str) (args args2 : List Str) (environ : EnvMap) :
    (needs_shell command = true ↔ ∃ c, c ∈ shellChars ∧ command.contains c = true) ∧
    (needs_shell command = true →
        plannedCall command args environ =
          .shellCall (List.intercalate [' '] (command :: args)) environ) ∧
    (needs_shell command = false →
        plannedCall command args environ = .directCall (command :: args) environ) ∧
    (plannedCall command args environ).isShell = (plannedCall command args2 environ).isShell := by
  refine ⟨?_, fun h => ?_, fun h => ?_, ?_⟩
  · simp [needs_shell, List.any_eq_true]
  · simp [plannedCall, h]
  · simp [plannedCall, h]
  · by_cases h : needs_shell command = true <;>
      simp [plannedCall, h, ExecCall.isShell]

theorem c3_shell_detection_scope_witness :
    plannedCall "a|b".toList ["x".toList] [] =
        .shellCall (List.intercalate [' '] ("a|b".toList :: ["x".toList])) [] ∧
      plannedCall "ls".toList ["x".toList] [] = .directCall ("ls".toList :: ["x".toList]) [] :=
  ⟨(c3_shell_detection_scope "a|b".toList ["x".toList] [] []).2.1 rfl,
    (c3_shell_detection_scope "ls".toList ["x".toList] [] []).2.2.1 rfl⟩

/-! ### Structure lemmas for the parser -/

/-- The mapping built by the line loop is the fold of the valid pairs of
the lines over the starting accumulator. -/
theorem parseLinesGo_fst (lines : List Str) (acc : EnvMap) (n : Nat) :
    (parseLinesGo acc n lines).1 =
      setVars acc (lines.filterMap fun line =>
        match parseLine line with
        | .pair k v => some (k, v)
        | _ => none) := by
  induction lines generalizing acc n with
  | nil => rfl
  | cons l rest ih =>
    cases h : parseLine l <;> simp [parseLinesGo, h, ih, setVars]

/-- The mapping returned by `parse_env_file` is the fold of the valid
pairs of the content over the empty dict. -/
theorem parse_env_file_fst (content : Str) :
    (parse_env_file content).1 = setVars [] (validPairs content) :=
  parseLinesGo_fst (splitlines content) [] 1

/-! ### Claims about the loader and the CLI dispatch -/

/-- Claim C4 (counterexample): the claim says loading never mutates the
invoking process's own global environment table, but `load_env_mcp` writes
the parsed pairs into `os.environ` — loading the one-line file `K=V` into
an empty global environment leaves the global environment nonempty. -/
theorem c4_no_global_mutation_counterexample :
    (load_env_mcp (fun _ => Except.ok "K=V".toList) none (some "/cfg") []).environ ≠ [] := by
  decide

/-- Claim C4 as amended: loading applies the parsed mapping by writing
each pair into the process's global environment table (`os.environ`), so
after a successful load the global table is the parsed pairs merged over
the inherited table; `execute_command` then passes a copy of that mutated
global table as the discrete environment argument of the single
child-process launch. -/
theorem c4_global_env_mutation_amended (readFile : String → Except Unit Str)
    (findResult custom : Option String) (p : String) (content : Str) (environ : EnvMap)
    (command : Str) (args : List Str)
    (hp : python_or custom findResult = some p) (hr : readFile p = Except.ok content) :
    (load_env_mcp readFile findResult custom environ).environ =
        setVars environ (parse_env_file content).1 ∧
    (load_env_mcp readFile findResult custom environ).ok = true ∧
    (plannedCall command args
          (load_env_mcp readFile findResult custom environ).environ).envArg =
        (load_env_mcp readFile findResult custom environ).environ := by
  have hload : load_env_mcp readFile findResult custom environ =
      ⟨true, setVars environ (parse_env_file content).1⟩ := by
    simp [load_env_mcp, hp, hr]
  refine ⟨by rw [hload], by rw [hload], ?_⟩
  by_cases h : needs_shell command = true <;>
    simp [plannedCall, h, ExecCall.envArg]

theorem c4_global_env_mutation_amended_witness :
    (load_env_mcp (fun _ => Except.ok "K=V".toList) none (some "/cfg") []).environ =
      setVars [] (parse_env_file "K=V".toList).1 :=
  (c4_global_env_mutation_amended (fun _ => Except.ok "K=V".toList) none (some "/cfg")
    "/cfg" "K=V".toList [] "ls".toList [] rfl rfl).1

/-- Claim C5 (counterexample): the claim says every explicitly supplied
path, the empty string included, is used as-is and the search is never
consulted; but the empty string is falsy in `custom_path or
find_env_file()`, so with an explicit empty path the load succeeds through
the searched path even though opening the supplied path itself fails. -/
theorem c5_explicit_path_counterexample :
    ((fun p => if p = "/h/.env.mcp" then Except.ok "K=V".toList else Except.error ()) "" =
        (Except.error () : Except Unit Str)) ∧
      (load_env_mcp
          (fun p => if p = "/h/.env.mcp" then Except.ok "K=V".toList else Except.error ())
          (some "/h/.env.mcp") (some "") []).ok = true :=
  ⟨rfl, by decide⟩

/-- Claim C5 as amended: for every non-empty explicitly supplied path,
`load_env_mcp` uses that path as-is — the choice is the supplied path and
the result is independent of what the search would have returned, so the
upward search and home fallback are never consulted; the only existence
check on the supplied path is the parser's own open attempt. The empty
string is falsy in Python and falls back to the search as if no path had
been supplied. -/
theorem c5_explicit_path_bypass_amended (s : String) (hs : s ≠ "")
    (readFile : String → Except Unit Str) (f1 f2 : Option String) (environ : EnvMap) :
    python_or (some s) f1 = some s ∧
      load_env_mcp readFile f1 (some s) environ = load_env_mcp readFile f2 (some s) environ := by
  constructor
  · simp [python_or, hs]
  · unfold load_env_mcp
    simp [python_or, hs]

theorem c5_explicit_path_bypass_amended_witness :
    python_or (some "/cfg") (some "/other") = some "/cfg" ∧
      load_env_mcp (fun _ => Except.error ()) (some "/other") (some "/cfg") [] =
        load_env_mcp (fun _ => Except.error ()) none (some "/cfg") [] :=
  c5_explicit_path_bypass_amended "/cfg" (by decide) (fun _ => Except.error ())
    (some "/other") none []

/-- Claim C10: if the chosen config file opens successfully but contains
no valid key=value line, `load_env_mcp` returns success with the global
environment unchanged, and `main` still proceeds to launch the wrapped
command. -/
theorem c10_empty_config_success (readFile : String → Except Unit Str)
    (findResult custom : Option String) (p : String) (content : Str) (environ : EnvMap)
    (hp : python_or custom findResult = some p) (hr : readFile p = Except.ok content)
    (hv : validPairs content = []) :
    load_env_mcp readFile findResult custom environ = ⟨true, environ⟩ ∧
      main_after_load (load_env_mcp readFile findResult custom environ).ok = .runCommand := by
  have hparse : (parse_env_file content).1 = [] := by
    rw [parse_env_file_fst, hv]
    rfl
  have hload : load_env_mcp readFile findResult custom environ = ⟨true, environ⟩ := by
    simp [load_env_mcp, hp, hr, hparse, setVars]
  exact ⟨hload, by rw [hload]; rfl⟩

theorem c10_empty_config_success_witness :
    load_env_mcp (fun _ => Except.ok "# c\nbad".toList) none (some "/cfg")
        [("A".toList, "1".toList)] = ⟨true, [("A".toList, "1".toList)]⟩ ∧
      main_after_load (load_env_mcp (fun _ => Except.ok "# c\nbad".toList) none (some "/cfg")
          [("A".toList, "1".toList)]).ok = .runCommand :=
  c10_empty_config_success (fun _ => Except.ok "# c\nbad".toList) none (some "/cfg") "/cfg"
    "# c\nbad".toList [("A".toList, "1".toList)] (by decide) rfl (by decide)

/-! ### Lookup lemmas for the parser claims -/

/-- `find?` over an append tries the left part first. -/
theorem find_append_or {α : Type} (l1 l2 : List α) (p : α → Bool) :
    (l1 ++ l2).find? p = (l1.find? p).or (l2.find? p) := by
  induction l1 with
  | nil => simp
  | cons a l ih =>
    by_cases h : p a <;> simp [List.find?, h, ih]

/-- Looking up after a dict assignment: the assigned key reads back the new
value, every other key is untouched. -/
theorem envLookup_dictSet (m : EnvMap) (k v k2 : Str) :
    envLookup (dictSet m k v) k2 = if k = k2 then some v else envLookup m k2 := by
  induction m with
  | nil =>
    by_cases h : k = k2 <;> simp [dictSet, envLookup, h]
  | cons hd tl ih =>
    obtain ⟨k0, v0⟩ := hd
    by_cases h0 : k0 = k
    · subst h0
      by_cases h2 : k0 = k2 <;> simp [dictSet, envLookup, h2]
    · by_cases h2 : k0 = k2
      · subst h2
        have hne : k ≠ k0 := fun hh => h0 hh.symm
        simp [dictSet, envLookup, h0, hne]
      · simp [dictSet, envLookup, h0, h2, ih]

/-- Looking up after folding a pair list into a dict: the last pair with
the key wins, and a key absent from the list falls back to the initial
dict. -/
theorem envLookup_setVars (ps : List (Str × Str)) (e : EnvMap) (k : Str) :
    envLookup (setVars e ps) k =
      ((ps.reverse.find? fun kv => kv.1 == k).map Prod.snd).or (envLookup e k) := by
  induction ps generalizing e with
  | nil => simp [setVars]
  | cons p rest ih =>
    have hstep : setVars e (p :: rest) = setVars (dictSet e p.1 p.2) rest := rfl
    rw [hstep, ih, List.reverse_cons, find_append_or]
    by_cases hk : p.1 = k
    · have hbeq : (p.1 == k) = true := by simp [hk]
      cases hfind : rest.reverse.find? (fun kv => kv.1 == k) <;>
        simp [envLookup_dictSet, hk, hbeq, hfind, List.find?, Option.or]
    · have hbeq : (p.1 == k) = false := by simp [hk]
      cases hfind : rest.reverse.find? (fun kv => kv.1 == k) <;>
        simp [envLookup_dictSet, hk, hbeq, hfind, List.find?, Option.or]

/-- The warning list built by the line loop is exactly the numbers of the
malformed lines, counted from `n`. -/
theorem parseLinesGo_snd (lines : List Str) (acc : EnvMap) (n : Nat) :
    (parseLinesGo acc n lines).2 =
      (List.enumFrom n lines).filterMap fun p =>
        match parseLine p.2 with
        | .warn => some p.1
        | _ => none := by
  induction lines generalizing acc n with
  | nil => rfl
  | cons l rest ih =>
    cases h : parseLine l <;> simp [parseLinesGo, h, ih, List.enumFrom]

/-! ### Claims about the parser -/

/-- Claim C7: a line `K="a=b"` parses to the pair `K` / `a=b` (first-equals
split keeps the internal `=` in the value, one outer double-quote pair is
stripped); a value written `'x'` parses to `x`; a concrete unquoted value
parses unchanged; and in general a value of length at least two that is
not wrapped in a matching pair of identical quote characters is kept
unchanged by the quote-stripping step. -/
theorem c7_quote_stripping_round_trip :
    (parseLine ('K' :: '=' :: dq :: 'a' :: '=' :: 'b' :: [dq]) =
        .pair "K".toList ('a' :: '=' :: ['b'])) ∧
    (parseLine ('K' :: '=' :: sq :: 'x' :: [sq]) = .pair "K".toList "x".toList) ∧
    (parseLine "K=no-quotes".toList = .pair "K".toList "no-quotes".toList) ∧
    ∀ v : Str, 2 ≤ v.length → isQuoteWrapped v = false → stripQuotes v = v := by
  refine ⟨by decide, by decide, by decide, fun v h2 hw => ?_⟩
  simp [stripQuotes, h2, hw]

theorem c7_quote_stripping_round_trip_witness :
    2 ≤ ("ab".toList : Str).length ∧ isQuoteWrapped "ab".toList = false ∧
      stripQuotes "ab".toList = "ab".toList :=
  ⟨by decide, by decide,
    c7_quote_stripping_round_trip.2.2.2 "ab".toList (by decide) (by decide)⟩

/-- Claim C8: for any content, the parsed mapping answers every key lookup
with the value of the last valid line carrying that key (and no key
outside the valid pairs), the returned warnings are exactly the 1-based
numbers of the malformed lines (no `=`, or empty trimmed key) — malformed
lines are skipped without failing the parse — and blank lines and lines
starting with `#` are skipped silently. -/
theorem c8_malformed_line_tolerance (content : Str) :
    (∀ k, envLookup (parse_env_file content).1 k =
        ((validPairs content).reverse.find? fun kv => kv.1 == k).map Prod.snd) ∧
    (parse_env_file content).2 = malformedLineNums content ∧
    ∀ line, (pyStrip line = [] ∨ (pyStrip line).head? = some '#') →
      parseLine line = .skip := by
  refine ⟨fun k => ?_, parseLinesGo_snd (splitlines content) [] 1, fun line h => ?_⟩
  · rw [parse_env_file_fst, envLookup_setVars]
    simp [envLookup]
  · rcases h with h | h
    · simp [parseLine, h]
    · by_cases he : pyStrip line = [] <;> simp [parseLine, he, h]

theorem c8_malformed_line_tolerance_witness :
    envLookup (parse_env_file "# c\nK=1\nbad\nK=2\n=v".toList).1 "K".toList =
        ((validPairs "# c\nK=1\nbad\nK=2\n=v".toList).reverse.find? fun kv =>
          kv.1 == "K".toList).map Prod.snd ∧
      envLookup (parse_env_file "# c\nK=1\nbad\nK=2\n=v".toList).1 "K".toList =
        some "2".toList ∧
      (parse_env_file "# c\nK=1\nbad\nK=2\n=v".toList).2 = [3, 5] ∧
      parseLine "# comment".toList = .skip :=
  ⟨(c8_malformed_line_tolerance "# c\nK=1\nbad\nK=2\n=v".toList).1 "K".toList,
    by decide,
    by
      rw [(c8_malformed_line_tolerance "# c\nK=1\nbad\nK=2\n=v".toList).2.1]
      decide,
    (c8_malformed_line_tolerance "# c\nK=1\nbad\nK=2\n=v".toList).2.2 "# comment".toList
      (Or.inr (by decide))⟩

/-! ### Claims about the locator -/

/-- The upward walk returns the sentinel file of the closest ancestor
whose probe confirms a regular file. -/
theorem find_from_eq_ancestors (fs : FS) (d : List String) :
    find_from fs d =
      ((ancestors d).find? fun a => isHit (fs.probe (envName :: a))).map
        (fun a => envName :: a) := by
  induction d with
  | nil =>
    cases h : fs.probe [envName] <;>
      simp [find_from, ancestors, isHit, h, List.find?]
  | cons c rest ih =>
    cases h : fs.probe (envName :: c :: rest) <;>
      simp [find_from, ancestors, isHit, h, List.find?, ih]

/-- A path returned by the upward walk was confirmed by its probe. -/
theorem find_from_isFile (fs : FS) (d p : List String)
    (h : find_from fs d = some p) : fs.probe p = .isFile := by
  induction d with
  | nil =>
    revert h
    unfold find_from
    cases hp : fs.probe [envName] <;> intro h <;> simp_all
  | cons c rest ih =>
    revert h
    unfold find_from
    cases hp : fs.probe (envName :: c :: rest) <;> intro h <;> simp_all

/-- Claim C6: for every filesystem and start directory, `find_env_file`
returns the sentinel path of the closest directory of the start
directory's ancestor chain (the directory first, then each parent up to
the root) whose probe confirms a regular `.env.mcp` file; if no ancestor
does, it returns the home-directory sentinel path iff its probe confirms a
regular file, and otherwise the not-found value. -/
theorem c6_locator_characterization (fs : FS) (start : List String) :
    find_env_file fs start =
      match (ancestors start).find? (fun a => isHit (fs.probe (envName :: a))) with
      | some a => some (envName :: a)
      | none =>
        if isHit (fs.probe (envName :: fs.home)) then some (envName :: fs.home)
        else none := by
  unfold find_env_file
  rw [find_from_eq_ancestors]
  cases h : (ancestors start).find? (fun a => isHit (fs.probe (envName :: a))) with
  | some a => simp
  | none => cases h2 : fs.probe (envName :: fs.home) <;> simp [isHit, h2]

/-- Claim C9: the locator is total and exception-free — a probe error on a
candidate is reported and the walk continues to the parent; the result is
always an ordinary value, namely the not-found value or a path whose probe
confirmed a regular file; and when the walk is exhausted and the home
probe errors (or misses), the result is the not-found value rather than a
raised exception. -/
theorem c9_locator_totality (fs : FS) :
    (∀ c rest, fs.probe (envName :: c :: rest) = .ioError →
        find_from fs (c :: rest) = find_from fs rest) ∧
    (∀ start, find_env_file fs start = none ∨
        ∃ p, find_env_file fs start = some p ∧ fs.probe p = .isFile) ∧
    (∀ start, fs.probe (envName :: fs.home) ≠ .isFile → find_from fs start = none →
        find_env_file fs start = none) := by
  refine ⟨fun c rest h => ?_, fun start => ?_, fun start h1 h2 => ?_⟩
  · conv_lhs => unfold find_from
    rw [h]
  · cases hf : find_env_file fs start with
    | none => exact Or.inl rfl
    | some p =>
      refine Or.inr ⟨p, rfl, ?_⟩
      unfold find_env_file at hf
      cases hw : find_from fs start with
      | some q =>
        simp only [hw] at hf
        obtain rfl : q = p := Option.some.inj hf
        exact find_from_isFile fs start q hw
      | none =>
        simp only [hw] at hf
        cases hh : fs.probe (envName :: fs.home) with
        | isFile =>
          simp only [hh] at hf
          obtain rfl : envName :: fs.home = p := Option.some.inj hf
          exact hh
        | noFile =>
          simp only [hh] at hf
          exact Option.noConfusion hf
        | ioError =>
          simp only [hh] at hf
          exact Option.noConfusion hf
  · unfold find_env_file
    rw [h2]
    cases hh : fs.probe (envName :: fs.home) <;> simp_all

theorem c9_locator_totality_witness :
    find_from (⟨fun _ => ProbeResult.ioError, []⟩ : FS) ["a"] =
        find_from (⟨fun _ => ProbeResult.ioError, []⟩ : FS) [] ∧
      find_env_file (⟨fun _ => ProbeResult.ioError, []⟩ : FS) ["a"] = none :=
  ⟨(c9_locator_totality (⟨fun _ => ProbeResult.ioError, []⟩ : FS)).1 "a" [] rfl,
    (c9_locator_totality (⟨fun _ => ProbeResult.ioError, []⟩ : FS)).2.2 ["a"]
      (by decide) rfl⟩

end Envmcp
